import Mathlib

/-!
Shallow embedding of the die-shop manufacturing API (FastAPI + SQLAlchemy).

The relational state (`DB`) mirrors the SQLAlchemy models in
src/app/models.py; the domain operations mirror the router handlers:

* generate_production_order_number, generate_work_order_number
  (src/app/order_number_helper.py)
* generate_work_orders_for_production_order
  (src/app/routers/production_orders.py, POST /{id}/generate-work-orders)
* update_work_order_operation
  (src/app/routers/work_orders.py, PATCH /work-order-operations/{id})
* create_stock_movement
  (src/app/routers/inventory.py, POST /inventory/stock-movements)

Machine conventions: SQL NUMERIC(12,3) quantities are modelled as Int
(the handlers only copy and compare them), timestamps as Nat,
autoincrement primary keys as Nat counters carried in `DB`.  An
`Except .error` result models an HTTP error response (or an uncaught
IntegrityError): the session is closed without commit, so the stored
state is unchanged.
-/

namespace DieShop

/-- OrderStatus enum (models.py). -/
inductive OrderStatus
  | Waiting
  | InProgress
  | Completed
  | Cancelled
deriving DecidableEq, Repr

/-- OperationStatus enum (models.py). -/
inductive OperationStatus
  | Waiting
  | InProgress
  | Completed
  | Paused
  | Cancelled
deriving DecidableEq, Repr

/-- DieStatus enum (models.py). -/
inductive DieStatus
  | Draft
  | Waiting
  | Ready
  | InProduction
  | Completed
deriving DecidableEq, Repr

/-- WorkCenterStatus enum (models.py). -/
inductive WorkCenterStatus
  | Available
  | Busy
  | UnderMaintenance
deriving DecidableEq, Repr

/-- Row of table die (columns read by the modelled handlers). -/
structure Die where
  id : Nat
  die_number : String
  status : DieStatus
deriving DecidableEq, Repr

/-- Row of table die_component. -/
structure DieComponent where
  id : Nat
  die_id : Nat
  component_type_id : Nat
  theoretical_consumption_kg : Int
deriving DecidableEq, Repr

/-- Row of table component_bom. -/
structure ComponentBOM where
  id : Nat
  component_type_id : Nat
  sequence_number : Int
  operation_name : String
  work_center_id : Nat
  estimated_duration_minutes : Option Int
  notes : Option String
deriving DecidableEq, Repr

/-- Row of table production_order. -/
structure ProductionOrder where
  id : Nat
  die_id : Nat
  order_number : String
  status : OrderStatus
  started_at : Option Nat
  completed_at : Option Nat
deriving DecidableEq, Repr

/-- Row of table work_order. -/
structure WorkOrder where
  id : Nat
  production_order_id : Nat
  die_component_id : Nat
  order_number : String
  status : OrderStatus
  theoretical_consumption_kg : Int
  actual_consumption_kg : Option Int
  lot_id : Option Nat
  started_at : Option Nat
  completed_at : Option Nat
deriving DecidableEq, Repr

/-- Row of table work_order_operation. -/
structure WorkOrderOperation where
  id : Nat
  work_order_id : Nat
  sequence_number : Int
  operation_name : String
  work_center_id : Nat
  operator_name : Option String
  status : OperationStatus
  estimated_duration_minutes : Option Int
  started_at : Option Nat
  completed_at : Option Nat
  notes : Option String
deriving DecidableEq, Repr

/-- Row of table work_center (columns read by the modelled handlers). -/
structure WorkCenter where
  id : Nat
  status : WorkCenterStatus
deriving DecidableEq, Repr

/-- Row of table lot (columns read by the modelled handlers). -/
structure Lot where
  id : Nat
  remaining_kg : Int
deriving DecidableEq, Repr

/-- Row of table stock_movement. -/
structure StockMovement where
  id : Nat
  lot_id : Nat
  work_order_id : Nat
  quantity_kg : Int
  movement_date : Nat
  notes : Option String
deriving DecidableEq, Repr

/-- The relational store.  The next_* counters model the autoincrement
primary-key sequences of the tables the handlers insert into. -/
structure DB where
  dies : List Die
  die_components : List DieComponent
  component_boms : List ComponentBOM
  production_orders : List ProductionOrder
  work_orders : List WorkOrder
  work_order_operations : List WorkOrderOperation
  work_centers : List WorkCenter
  lots : List Lot
  stock_movements : List StockMovement
  next_work_order_id : Nat
  next_operation_id : Nat
  next_movement_id : Nat
deriving DecidableEq, Repr

/-! ### Python / SQL string primitives -/

/-- Lexicographic order on character lists by code point.  Models SQL
text ordering (memcmp on UTF-8 bytes agrees with code-point order). -/
def lexLe : List Char → List Char → Bool
  | [], _ => true
  | _ :: _, [] => false
  | a :: as, b :: bs =>
    if a.toNat < b.toNat then true
    else if b.toNat < a.toNat then false
    else lexLe as bs

/-- SQL text comparison on strings. -/
def strLe (s t : String) : Bool :=
  lexLe s.data t.data

/-- ORDER BY s DESC LIMIT 1 over a column of strings: a maximal element,
none on an empty result set. -/
def sqlMaxString : List String → Option String
  | [] => none
  | s :: rest =>
    match sqlMaxString rest with
    | none => some s
    | some m => if strLe s m then some m else some s

/-- SQL LIKE with a single trailing percent wildcard, i.e. a string
starts-with test.  Wildcard characters inside the pattern body are not
modelled (die numbers are plain codes). -/
def strStartsWith (s pat : String) : Bool :=
  pat.data.isPrefixOf s.data

/-- Split a character list at the first occurrence of sep: the part
before it, and the rest when sep occurs. -/
def splitFirst (sep : Char) : List Char → List Char × Option (List Char)
  | [] => ([], none)
  | c :: rest =>
    if c == sep then ([], some rest)
    else
      let pr := splitFirst sep rest
      (c :: pr.1, pr.2)

/-- Python str.split(sep) with no limit (accumulator version). -/
def splitAllAux (sep : Char) : List Char → List Char → List (List Char)
  | [], acc => [acc.reverse]
  | c :: rest, acc =>
    if c == sep then acc.reverse :: splitAllAux sep rest []
    else splitAllAux sep rest (c :: acc)

/-- Python s.split(sep) for a one-character separator. -/
def pySplitAll (sep : Char) (s : String) : List String :=
  (splitAllAux sep s.data []).map String.mk

/-- Python s.split(sep, 2): split at the first two occurrences only. -/
def pySplitMax2 (sep : Char) (s : String) : List String :=
  match splitFirst sep s.data with
  | (p0, none) => [String.mk p0]
  | (p0, some r0) =>
    match splitFirst sep r0 with
    | (p1, none) => [String.mk p0, String.mk p1]
    | (p1, some r1) => [String.mk p0, String.mk p1, String.mk r1]

/-- Nonempty all-digit character list to its decimal value. -/
def pyDigitsAux : List Char → Nat → Option Nat
  | [], acc => some acc
  | c :: rest, acc =>
    if c.isDigit then pyDigitsAux rest (acc * 10 + (c.toNat - 48)) else none

/-- Python int(str): optional surrounding whitespace, optional sign,
then one or more ASCII digits (none gives ValueError, modelled as none).
Underscore digit grouping is not modelled. -/
def pyInt? (s : String) : Option Int :=
  let cs := ((s.data.dropWhile Char.isWhitespace).reverse.dropWhile Char.isWhitespace).reverse
  match cs with
  | [] => none
  | '+' :: rest =>
    match rest, pyDigitsAux rest 0 with
    | _ :: _, some n => some (Int.ofNat n)
    | _, _ => none
  | '-' :: rest =>
    match rest, pyDigitsAux rest 0 with
    | _ :: _, some n => some (-(Int.ofNat n))
    | _, _ => none
  | rest =>
    match pyDigitsAux rest 0 with
    | some n => some (Int.ofNat n)
    | none => none

/-- Left-pad a string with zeros to the given width. -/
def padZeros (s : String) (w : Nat) : String :=
  if w ≤ s.data.length then s
  else String.mk (List.replicate (w - s.data.length) '0') ++ s

/-- Python format spec 0wd on an int: zero-pad to minimum total width w,
the sign sitting before the padding. -/
def pyFormatZeroPad (n : Int) (w : Nat) : String :=
  if n < 0 then "-" ++ padZeros (toString (-n).toNat) (w - 1)
  else padZeros (toString n.toNat) w

/-- Trailing segment of a hyphen-split string, Python parts[-1]
(split always yields at least one part, so this is never none). -/
def trailingSegment (s : String) : Option String :=
  (pySplitAll '-' s).getLast?

/-! ### Identifier generator (src/app/order_number_helper.py) -/

/-- The order_number column of the query inside
generate_production_order_number: this die's production orders whose
number is LIKE "UE-<die_number>-%". -/
def poNumbersMatching (db : DB) (die : Die) : List String :=
  (db.production_orders.filter
    (fun po => po.die_id == die.id
      && strStartsWith po.order_number ("UE-" ++ die.die_number ++ "-"))).map
    (fun po => po.order_number)

/-- Embeds generate_production_order_number: filter this die's
production orders on the LIKE prefix, ORDER BY order_number DESC /
first (= lexicographic maximum), int(parts[-1]) + 1 with ValueError
falling back to 1, then f-string formatting with zero-pad 3. -/
def generate_production_order_number (db : DB) (die : Die) : String :=
  let base := "UE-" ++ die.die_number
  let seq : Int :=
    match sqlMaxString (poNumbersMatching db die) with
    | some last =>
      match trailingSegment last with
      | some tail =>
        match pyInt? tail with
        | some n => n + 1
        | none => 1
      | none => 1
    | none => 1
  base ++ "-" ++ pyFormatZeroPad seq 3

/-- Embeds generate_work_order_number: po.order_number.split("-", 2);
with exactly three parts the middle and last are reused, otherwise the
fallback is the die number with po_seq "001". -/
def generate_work_order_number (die : Die) (po : ProductionOrder) (index : Int) : String :=
  match pySplitMax2 '-' po.order_number with
  | [_, die_number, po_seq] =>
    "IE-" ++ die_number ++ "-" ++ po_seq ++ "-" ++ pyFormatZeroPad index 2
  | _ =>
    "IE-" ++ die.die_number ++ "-" ++ "001" ++ "-" ++ pyFormatZeroPad index 2

/-! ### Shared row update helpers (UPDATE ... WHERE id = ...) -/

/-- ORM identity-map write-back: replace every row whose key equals the
new row's key (primary keys are unique, so at most one row changes). -/
def replaceBy {α : Type} (key : α → Nat) (l : List α) (b : α) : List α :=
  l.map (fun x => if key x == key b then b else x)

/-- db.query(WorkCenter).get(id) followed by a status assignment; a
missing id leaves the table unchanged (the source guards with if wc). -/
def setWorkCenterStatus (l : List WorkCenter) (wcId : Nat) (st : WorkCenterStatus) :
    List WorkCenter :=
  l.map (fun w => if w.id == wcId then { w with status := st } else w)

/-! ### Work order expander
(src/app/routers/production_orders.py, generate_work_orders_for_production_order) -/

/-- Errors of the expansion endpoint.  duplicate_order_number models the
IntegrityError raised at db.flush() by the UNIQUE constraint on
work_order.order_number (models.py); it aborts the whole transaction. -/
inductive ExpandError
  | production_order_not_found
  | related_die_not_found
  | die_has_no_components
  | duplicate_order_number
deriving DecidableEq, Repr

/-- sorted(die.components, key=lambda c: c.id): a stable sort ascending
by primary key (ids are unique, so ties cannot arise). -/
def sortedComponents (comps : List DieComponent) : List DieComponent :=
  comps.insertionSort (fun a b => a.id ≤ b.id)

/-- BOM rows of a component type, ORDER BY sequence_number ASC
(sequence numbers are unique per component type, so ties cannot arise). -/
def bomsFor (db : DB) (ctId : Nat) : List ComponentBOM :=
  (db.component_boms.filter (fun b => b.component_type_id == ctId)).insertionSort
    (fun a b => a.sequence_number ≤ b.sequence_number)

instance : IsTotal DieComponent (fun a b => a.id ≤ b.id) :=
  ⟨fun a b => Nat.le_total a.id b.id⟩

instance : IsTrans DieComponent (fun a b => a.id ≤ b.id) :=
  ⟨fun _ _ _ h₁ h₂ => Nat.le_trans h₁ h₂⟩

/-- The WorkOrder record built inside the expansion loop. -/
def newWorkOrder (woId : Nat) (po : ProductionOrder) (c : DieComponent) (num : String) :
    WorkOrder :=
  { id := woId
    production_order_id := po.id
    die_component_id := c.id
    order_number := num
    status := .Waiting
    theoretical_consumption_kg := c.theoretical_consumption_kg
    actual_consumption_kg := none
    lot_id := none
    started_at := none
    completed_at := none }

/-- The WorkOrderOperation record materialized from one BOM row. -/
def operationFromBom (opId woId : Nat) (b : ComponentBOM) : WorkOrderOperation :=
  { id := opId
    work_order_id := woId
    sequence_number := b.sequence_number
    operation_name := b.operation_name
    work_center_id := b.work_center_id
    operator_name := none
    status := .Waiting
    estimated_duration_minutes := b.estimated_duration_minutes
    started_at := none
    completed_at := none
    notes := b.notes }

/-- The per-component loop of the expansion endpoint.  flushed holds the
work orders already inserted in this transaction: the uniqueness check at
db.flush() sees committed rows and earlier uncommitted inserts alike. -/
def expandLoop (db : DB) (die : Die) (po : ProductionOrder) :
    List DieComponent → Nat → Nat → Nat → List WorkOrder →
    Except ExpandError (List WorkOrder × List WorkOrderOperation)
  | [], _, _, _, _ => .ok ([], [])
  | c :: rest, index, woId, opId, flushed =>
    let num := generate_work_order_number die po (Int.ofNat index)
    if (db.work_orders ++ flushed).any (fun w => w.order_number == num) then
      .error .duplicate_order_number
    else
      let wo := newWorkOrder woId po c num
      let boms := bomsFor db c.component_type_id
      let ops := boms.enum.map (fun kb => operationFromBom (opId + kb.1) woId kb.2)
      match expandLoop db die po rest (index + 1) (woId + 1) (opId + boms.length) (flushed ++ [wo]) with
      | .ok (ws, os) => .ok (wo :: ws, ops ++ os)
      | .error e => .error e

/-- Embeds POST /production-orders/{id}/generate-work-orders: load the
production order and its die, require at least one component, create one
work order per component (ascending component id, 1-based index) with
its operations copied from the component type's BOM, then flip the die
to InProduction, the production order to InProgress, and set started_at
when it is unset. -/
def generate_work_orders_for_production_order (db : DB) (poid : Nat) (now : Nat) :
    Except ExpandError DB :=
  match db.production_orders.find? (fun po => po.id == poid) with
  | none => .error .production_order_not_found
  | some po =>
    match db.dies.find? (fun d => d.id == po.die_id) with
    | none => .error .related_die_not_found
    | some die =>
      let comps := sortedComponents (db.die_components.filter (fun c => c.die_id == die.id))
      if comps.isEmpty then .error .die_has_no_components
      else
        match expandLoop db die po comps 1 db.next_work_order_id db.next_operation_id [] with
        | .error e => .error e
        | .ok (ws, os) =>
          let die₂ := { die with status := DieStatus.InProduction }
          let po₂ := { po with
            status := OrderStatus.InProgress
            started_at := match po.started_at with
              | none => some now
              | some t => some t }
          .ok { db with
            dies := replaceBy (fun d => d.id) db.dies die₂
            production_orders := replaceBy (fun p => p.id) db.production_orders po₂
            work_orders := db.work_orders ++ ws
            work_order_operations := db.work_order_operations ++ os
            next_work_order_id := db.next_work_order_id + ws.length
            next_operation_id := db.next_operation_id + os.length }

/-- Endpoint-level view of expansion: on an error response the session
is closed without commit, so the stored state is the old one. -/
def run_generate_work_orders (db : DB) (poid : Nat) (now : Nat) : DB × Option ExpandError :=
  match generate_work_orders_for_production_order db poid now with
  | .ok d => (d, none)
  | .error e => (db, some e)

/-! ### Operation state machine
(src/app/routers/work_orders.py, update_work_order_operation) -/

/-- Errors of the operation PATCH endpoint.
sequence_dependency_violation is the 400 raised when an earlier
operation of the same work order is not yet completed. -/
inductive TransitionError
  | operation_not_found
  | sequence_dependency_violation
deriving DecidableEq, Repr

/-- A PATCH body carrying a status update.  operator_name mirrors
pydantic exclude_unset: none means the key is absent, some v means the
key is present with value v (possibly null). -/
structure OperationStatusPatch where
  status : OperationStatus
  operator_name : Option (Option String)
deriving DecidableEq, Repr

/-- Python truthiness of an optional string: None and the empty string
are falsy. -/
def pyTruthyStr : Option String → Bool
  | none => false
  | some s => !s.data.isEmpty

/-- Embeds PATCH /work-order-operations/{id} for a payload updating
status (and possibly operator_name).  The InProgress branch runs the
sequence-dependency check and raises before any write when a
lower-sequence sibling is not Completed; on success it stamps
started_at, binds a truthy operator_name, and sets the work center
Busy.  Paused only sets the status.  Cancelled and Completed stamp
completed_at and release the work center; the Completed branch does not
pop operator_name, so a present key is assigned verbatim there by the
generic field loop. -/
def update_work_order_operation (db : DB) (opId : Nat) (patch : OperationStatusPatch)
    (now : Nat) : Except TransitionError DB :=
  match db.work_order_operations.find? (fun o => o.id == opId) with
  | none => .error .operation_not_found
  | some op =>
    match patch.status with
    | .InProgress =>
      let previous_ops := db.work_order_operations.filter
        (fun p => p.work_order_id == op.work_order_id
          && decide (p.sequence_number < op.sequence_number))
      let not_completed := previous_ops.filter (fun p => !(p.status == OperationStatus.Completed))
      if !not_completed.isEmpty then .error .sequence_dependency_violation
      else
        let op₁ := { op with status := OperationStatus.InProgress, started_at := some now }
        let op₂ :=
          match patch.operator_name with
          | some v => if pyTruthyStr v then { op₁ with operator_name := v } else op₁
          | none => op₁
        .ok { db with
          work_order_operations := replaceBy (fun o => o.id) db.work_order_operations op₂
          work_centers := setWorkCenterStatus db.work_centers op.work_center_id .Busy }
    | .Paused =>
      .ok { db with
        work_order_operations := replaceBy (fun o => o.id) db.work_order_operations
          { op with status := OperationStatus.Paused } }
    | .Cancelled =>
      .ok { db with
        work_order_operations := replaceBy (fun o => o.id) db.work_order_operations
          { op with status := OperationStatus.Cancelled, completed_at := some now }
        work_centers := setWorkCenterStatus db.work_centers op.work_center_id .Available }
    | .Completed =>
      let op₁ := { op with status := OperationStatus.Completed, completed_at := some now }
      let op₂ :=
        match patch.operator_name with
        | some v => { op₁ with operator_name := v }
        | none => op₁
      .ok { db with
        work_order_operations := replaceBy (fun o => o.id) db.work_order_operations op₂
        work_centers := setWorkCenterStatus db.work_centers op.work_center_id .Available }
    | .Waiting =>
      .ok { db with
        work_order_operations := replaceBy (fun o => o.id) db.work_order_operations
          { op with status := OperationStatus.Waiting } }

/-- Endpoint-level view of the operation PATCH: on an error response the
session is closed without commit, so the stored state is the old one. -/
def run_update_operation (db : DB) (opId : Nat) (patch : OperationStatusPatch) (now : Nat) :
    DB × Option TransitionError :=
  match update_work_order_operation db opId patch now with
  | .ok d => (d, none)
  | .error e => (db, some e)

/-! ### Inventory ledger (src/app/routers/inventory.py) -/

/-- Body of POST /inventory/stock-movements. -/
structure StockMovementCreate where
  lot_id : Nat
  work_order_id : Nat
  quantity_kg : Int
  movement_date : Nat
  notes : Option String
deriving DecidableEq, Repr

/-- Foreign-key violations raised at commit for a dangling reference
(the handler itself performs no existence checks). -/
inductive MovementError
  | missing_lot
  | missing_work_order
deriving DecidableEq, Repr

/-- Embeds create_stock_movement: insert the row and commit.  The
handler never reads or writes lot.remaining_kg and performs no quantity
check; the only failures are the NOT NULL foreign keys on lot_id and
work_order_id. -/
def create_stock_movement (db : DB) (payload : StockMovementCreate) :
    Except MovementError DB :=
  if !(db.lots.any (fun l => l.id == payload.lot_id)) then .error .missing_lot
  else if !(db.work_orders.any (fun w => w.id == payload.work_order_id)) then
    .error .missing_work_order
  else
    .ok { db with
      stock_movements := db.stock_movements ++
        [{ id := db.next_movement_id
           lot_id := payload.lot_id
           work_order_id := payload.work_order_id
           quantity_kg := payload.quantity_kg
           movement_date := payload.movement_date
           notes := payload.notes }]
      next_movement_id := db.next_movement_id + 1 }

/-! ### Specification predicates -/

/-- What claim C1 asserts a successful expansion creates: the call
appends a block ws of work orders and a block os of operations (every
previously stored row is untouched), one work order per die component
in ascending component-id order with a 1-based index in its order
number, and for each component one operation per BOM row of its
component type with the BOM fields copied; every created row starts
Waiting. -/
def ExpansionSpec (db db' : DB) (po : ProductionOrder) (die : Die) : Prop :=
  let comps := sortedComponents (db.die_components.filter (fun c => c.die_id == die.id))
  ∃ ws os,
    db'.work_orders = db.work_orders ++ ws
    ∧ db'.work_order_operations = db.work_order_operations ++ os
    ∧ 1 ≤ comps.length
    ∧ ws.length = comps.length
    ∧ List.Sorted (fun a b : DieComponent => a.id ≤ b.id) comps
    ∧ comps.Perm (db.die_components.filter (fun c => c.die_id == die.id))
    ∧ (∀ (i : Nat) (h₁ : i < ws.length) (h₂ : i < comps.length),
        ws.get ⟨i, h₁⟩ = newWorkOrder (db.next_work_order_id + i) po (comps.get ⟨i, h₂⟩)
          (generate_work_order_number die po (Int.ofNat (1 + i))))
    ∧ (∀ (i : Nat) (h₂ : i < comps.length), ∃ base,
        os.filter (fun o => o.work_order_id == db.next_work_order_id + i)
          = (bomsFor db (comps.get ⟨i, h₂⟩).component_type_id).enum.map
              (fun kb => operationFromBom (base + kb.1) (db.next_work_order_id + i) kb.2))
    ∧ (∀ w ∈ ws, w.status = OrderStatus.Waiting)
    ∧ (∀ o ∈ os, o.status = OperationStatus.Waiting)

/-! ### Concrete states used as witnesses -/

/-- An empty store. -/
def emptyDB : DB :=
  { dies := []
    die_components := []
    component_boms := []
    production_orders := []
    work_orders := []
    work_order_operations := []
    work_centers := []
    lots := []
    stock_movements := []
    next_work_order_id := 1
    next_operation_id := 1
    next_movement_id := 1 }

/-- The die of the spec scenario: code "1100", two components. -/
def scenarioDie : Die := ⟨1, "1100", DieStatus.Ready⟩

/-- Production order UE-1100-001 for the scenario die. -/
def scenarioPO : ProductionOrder :=
  ⟨1, 1, "UE-1100-001", OrderStatus.Waiting, none, none⟩

/-- The spec scenario: die "1100" with two components whose component
types each carry a three-step BOM. -/
def scenarioDB : DB :=
  { emptyDB with
    dies := [scenarioDie]
    die_components := [⟨2, 1, 20, 7⟩, ⟨1, 1, 10, 5⟩]
    component_boms :=
      [⟨1, 10, 1, "turn", 1, some 30, none⟩, ⟨2, 10, 2, "mill", 2, some 45, none⟩,
       ⟨3, 10, 3, "edm", 3, none, some "deburr"⟩,
       ⟨4, 20, 1, "cut", 1, some 10, none⟩, ⟨5, 20, 2, "drill", 2, none, none⟩,
       ⟨6, 20, 3, "polish", 3, some 5, none⟩]
    production_orders := [scenarioPO]
    work_centers := [⟨1, .Available⟩, ⟨2, .Available⟩, ⟨3, .Available⟩] }

/-- The store after expanding the scenario production order at time 50. -/
def scenarioExpanded : DB :=
  match generate_work_orders_for_production_order scenarioDB 1 50 with
  | .ok d => d
  | .error _ => scenarioDB

/-- Operation 1 of work order 1, sequence 1, already Cancelled. -/
def smOp1 : WorkOrderOperation :=
  ⟨1, 1, 1, "turn", 1, none, OperationStatus.Cancelled, none, none, none, none⟩

/-- Operation 2 of work order 1, sequence 2, still Waiting. -/
def smOp2 : WorkOrderOperation :=
  ⟨2, 1, 2, "mill", 2, none, OperationStatus.Waiting, some 5, none, none, none⟩

/-- A store holding one work order with a cancelled first operation and
a waiting second operation. -/
def stateMachineDB : DB :=
  { emptyDB with
    work_order_operations := [smOp1, smOp2]
    work_centers := [⟨1, .Available⟩, ⟨2, .Available⟩] }

/-- stateMachineDB after pausing operation 2 (from Waiting). -/
def pausedOut : DB :=
  match update_work_order_operation stateMachineDB 2 ⟨OperationStatus.Paused, none⟩ 9 with
  | .ok d => d
  | .error _ => stateMachineDB

/-- stateMachineDB after completing the cancelled operation 1. -/
def c10Mid : DB :=
  match update_work_order_operation stateMachineDB 1 ⟨OperationStatus.Completed, none⟩ 11 with
  | .ok d => d
  | .error _ => stateMachineDB

/-- c10Mid after starting operation 2. -/
def c10End : DB :=
  match update_work_order_operation c10Mid 2 ⟨OperationStatus.InProgress, none⟩ 12 with
  | .ok d => d
  | .error _ => c10Mid

/-- A lone waiting operation whose started_at is already set to 5. -/
def c7Op : WorkOrderOperation :=
  ⟨1, 1, 1, "turn", 1, none, OperationStatus.Waiting, none, some 5, none, none⟩

/-- Store for the started_at experiment. -/
def c7DB : DB :=
  { emptyDB with
    work_order_operations := [c7Op]
    work_centers := [⟨1, .Available⟩] }

/-- c7DB after starting its operation at time 9 with operator "ali". -/
def c7Out : DB :=
  match update_work_order_operation c7DB 1
      ⟨OperationStatus.InProgress, some (some "ali")⟩ 9 with
  | .ok d => d
  | .error _ => c7DB

/-- A lot with 5 units remaining. -/
def c4Lot : Lot := ⟨1, 5⟩

/-- A work order the movement refers to. -/
def c4WO : WorkOrder :=
  ⟨1, 1, 1, "IE-1-001-01", OrderStatus.Waiting, 5, none, none, none, none⟩

/-- A movement over the lot requesting 10 units, twice the remainder. -/
def c4Payload : StockMovementCreate := ⟨1, 1, 10, 20, none⟩

/-- Store for the stock-movement experiment. -/
def c4DB : DB := { emptyDB with lots := [c4Lot], work_orders := [c4WO] }

/-- c4DB after posting the oversized movement. -/
def c4Out : DB :=
  match create_stock_movement c4DB c4Payload with
  | .ok d => d
  | .error _ => c4DB

/-- Die 100 for the numbering examples. -/
def c5Die : Die := ⟨5, "100", DieStatus.Draft⟩

/-- A store with history UE-100-001, UE-100-002 for die 100. -/
def c5DB : DB :=
  { emptyDB with
    dies := [c5Die]
    production_orders :=
      [⟨1, 5, "UE-100-001", OrderStatus.Waiting, none, none⟩,
       ⟨2, 5, "UE-100-002", OrderStatus.Waiting, none, none⟩] }

/-- A store with no production orders at all. -/
def c5EmptyDB : DB := { emptyDB with dies := [c5Die] }

/-- Die 100 as parent of production order UE-100-003. -/
def c6Die : Die := ⟨1, "100", DieStatus.Draft⟩

/-- Production order UE-100-003. -/
def c6PO : ProductionOrder :=
  ⟨1, 1, "UE-100-003", OrderStatus.Waiting, none, none⟩

/-! ### Helper lemmas -/

theorem find?_map_of_update {α : Type} (l : List α) (p : α → Bool) (g : α → α)
    (hg : ∀ x, p x = true → p (g x) = true)
    (hg₂ : ∀ x, p x = false → g x = x)
    (a : α) (h : l.find? p = some a) :
    (l.map g).find? p = some (g a) := by
  induction l with
  | nil => simp at h
  | cons x xs ih =>
    rcases hx : p x with _ | _
    · rw [List.find?_cons_of_neg _ (by simp [hx])] at h
      simpa [hg₂ x hx, List.find?_cons_of_neg, hx] using ih h
    · rw [List.find?_cons_of_pos _ hx] at h
      cases h
      simp [List.find?_cons_of_pos _ (hg a hx)]

theorem find?_replaceBy {α : Type} (key : α → Nat) (l : List α) (i : Nat) (a b : α)
    (h : l.find? (fun x => key x == i) = some a) (hab : key b = key a) :
    (replaceBy key l b).find? (fun x => key x == i) = some b := by
  have ha : key a = i := by simpa using List.find?_some h
  have h₂ := find?_map_of_update l (fun x => key x == i)
    (fun x => if key x == key b then b else x)
    (by
      intro x hx
      dsimp only
      split
      · simp [hab, ha]
      · exact hx)
    (by
      intro x hx
      dsimp only
      have hne : ¬key x = key b := by
        simp only [beq_iff_eq] at hx
        rw [hab, ha]
        simpa using hx
      simp [hne])
    a h
  have hga : (if key a == key b then b else a) = b := by simp [hab, ha]
  rw [replaceBy]
  dsimp only at h₂
  rw [hga] at h₂
  exact h₂

theorem find?_setWorkCenterStatus (l : List WorkCenter) (wcId : Nat)
    (st : WorkCenterStatus) (wc : WorkCenter)
    (h : l.find? (fun w => w.id == wcId) = some wc) :
    (setWorkCenterStatus l wcId st).find? (fun w => w.id == wcId)
      = some { wc with status := st } := by
  have hwc : wc.id = wcId := by simpa using List.find?_some h
  have h₂ := find?_map_of_update l (fun w => w.id == wcId)
    (fun w => if w.id == wcId then { w with status := st } else w)
    (by
      intro x hx
      dsimp only
      split
      · simpa using hx
      · exact hx)
    (by
      intro x hx
      dsimp only
      simp only [beq_iff_eq] at hx
      simp [hx])
    wc h
  have hga : (if wc.id == wcId then { wc with status := st } else wc)
      = { wc with status := st } := by simp [hwc]
  rw [setWorkCenterStatus]
  dsimp only at h₂
  rw [hga] at h₂
  exact h₂

theorem generate_work_order_number_congr (die₁ die₂ : Die)
    (po₁ po₂ : ProductionOrder) (index : Int)
    (hdie : die₁.die_number = die₂.die_number)
    (hpo : po₁.order_number = po₂.order_number) :
    generate_work_order_number die₁ po₁ index = generate_work_order_number die₂ po₂ index := by
  unfold generate_work_order_number
  rw [hdie, hpo]

theorem splitFirst_of_not_mem (sep : Char) (l : List Char) (h : sep ∉ l) :
    splitFirst sep l = (l, none) := by
  induction l with
  | nil => rfl
  | cons c cs ih =>
    simp only [List.mem_cons, not_or] at h
    have hc : (c == sep) = false := beq_eq_false_iff_ne.mpr (fun hcc => h.1 hcc.symm)
    simp [splitFirst, hc, ih h.2]

theorem splitFirst_append_sep (sep : Char) (l₁ l₂ : List Char) (h : sep ∉ l₁) :
    splitFirst sep (l₁ ++ sep :: l₂) = (l₁, some l₂) := by
  induction l₁ with
  | nil => simp [splitFirst]
  | cons c cs ih =>
    simp only [List.mem_cons, not_or] at h
    have hc : (c == sep) = false := beq_eq_false_iff_ne.mpr (fun hcc => h.1 hcc.symm)
    simp [splitFirst, hc, ih h.2]

theorem lexLe_cons_iff (a b : Char) (as bs : List Char) :
    lexLe (a :: as) (b :: bs) = true
      ↔ (a.toNat < b.toNat ∨ (a.toNat = b.toNat ∧ lexLe as bs = true)) := by
  simp only [lexLe]
  by_cases h₁ : a.toNat < b.toNat
  · simp [h₁]
  · by_cases h₂ : b.toNat < a.toNat
    · simp [h₁, h₂]
      omega
    · have he : a.toNat = b.toNat := by omega
      simp [h₁, h₂, he]

theorem char_eq_of_toNat_eq (a b : Char) (h : a.toNat = b.toNat) : a = b := by
  apply Char.eq_of_val_eq
  apply UInt32.eq_of_val_eq
  exact Fin.ext h

theorem lexLe_refl (l : List Char) : lexLe l l = true := by
  induction l with
  | nil => rfl
  | cons a as ih => rw [lexLe_cons_iff]; exact Or.inr ⟨rfl, ih⟩

theorem lexLe_total (l₁ l₂ : List Char) : lexLe l₁ l₂ = true ∨ lexLe l₂ l₁ = true := by
  induction l₁ generalizing l₂ with
  | nil => left; rfl
  | cons a as ih =>
    cases l₂ with
    | nil => right; rfl
    | cons b bs =>
      rw [lexLe_cons_iff, lexLe_cons_iff]
      rcases Nat.lt_trichotomy a.toNat b.toNat with h | h | h
      · exact Or.inl (Or.inl h)
      · rcases ih bs with h₂ | h₂
        · exact Or.inl (Or.inr ⟨h, h₂⟩)
        · exact Or.inr (Or.inr ⟨h.symm, h₂⟩)
      · exact Or.inr (Or.inl h)

theorem lexLe_trans (l₁ l₂ l₃ : List Char) (h₁ : lexLe l₁ l₂ = true)
    (h₂ : lexLe l₂ l₃ = true) : lexLe l₁ l₃ = true := by
  induction l₁ generalizing l₂ l₃ with
  | nil => rfl
  | cons a as ih =>
    cases l₂ with
    | nil => simp [lexLe] at h₁
    | cons b bs =>
      cases l₃ with
      | nil => simp [lexLe] at h₂
      | cons c cs =>
        rw [lexLe_cons_iff] at h₁ h₂ ⊢
        rcases h₁ with h₁ | ⟨h₁e, h₁r⟩
        · rcases h₂ with h₂ | ⟨h₂e, _⟩
          · exact Or.inl (by omega)
          · exact Or.inl (by omega)
        · rcases h₂ with h₂ | ⟨h₂e, h₂r⟩
          · exact Or.inl (by omega)
          · exact Or.inr ⟨by omega, ih bs cs h₁r h₂r⟩

theorem lexLe_antisymm (l₁ l₂ : List Char) (h₁ : lexLe l₁ l₂ = true)
    (h₂ : lexLe l₂ l₁ = true) : l₁ = l₂ := by
  induction l₁ generalizing l₂ with
  | nil =>
    cases l₂ with
    | nil => rfl
    | cons b bs => simp [lexLe] at h₂
  | cons a as ih =>
    cases l₂ with
    | nil => simp [lexLe] at h₁
    | cons b bs =>
      rw [lexLe_cons_iff] at h₁ h₂
      rcases h₁ with h₁ | ⟨h₁e, h₁r⟩
      · rcases h₂ with h₂ | ⟨h₂e, _⟩ <;> omega
      · rcases h₂ with h₂ | ⟨h₂e, h₂r⟩
        · omega
        · rw [char_eq_of_toNat_eq a b h₁e, ih bs h₁r h₂r]

theorem strLe_refl (s : String) : strLe s s = true := lexLe_refl s.data

theorem strLe_total (s t : String) : strLe s t = true ∨ strLe t s = true :=
  lexLe_total s.data t.data

theorem strLe_trans (s t u : String) (h₁ : strLe s t = true) (h₂ : strLe t u = true) :
    strLe s u = true :=
  lexLe_trans s.data t.data u.data h₁ h₂

theorem strLe_antisymm (s t : String) (h₁ : strLe s t = true) (h₂ : strLe t s = true) :
    s = t := by
  have h := lexLe_antisymm s.data t.data h₁ h₂
  cases s with
  | mk d₁ =>
    cases t with
    | mk d₂ => exact congrArg String.mk h

theorem sqlMaxString_eq_none (l : List String) (h : sqlMaxString l = none) : l = [] := by
  cases l with
  | nil => rfl
  | cons s rest =>
    exfalso
    simp only [sqlMaxString] at h
    rcases hr : sqlMaxString rest with _ | m₀ <;> rw [hr] at h
    · simp at h
    · by_cases hc : strLe s m₀ = true <;> simp [hc] at h

theorem sqlMaxString_mem (l : List String) (m : String) (h : sqlMaxString l = some m) :
    m ∈ l := by
  induction l generalizing m with
  | nil => simp [sqlMaxString] at h
  | cons s rest ih =>
    simp only [sqlMaxString] at h
    rcases hr : sqlMaxString rest with _ | m₀ <;> rw [hr] at h
    · injection h with h
      subst h
      exact List.mem_cons_self _ _
    · by_cases hc : strLe s m₀ = true <;> simp [hc] at h <;> subst h
      · exact List.mem_cons_of_mem s (ih m₀ hr)
      · exact List.mem_cons_self _ _

theorem sqlMaxString_isMax (l : List String) (m : String) (h : sqlMaxString l = some m) :
    ∀ x ∈ l, strLe x m = true := by
  induction l generalizing m with
  | nil => simp
  | cons s rest ih =>
    intro x hx
    simp only [sqlMaxString] at h
    rcases hr : sqlMaxString rest with _ | m₀ <;> rw [hr] at h
    · have hrest := sqlMaxString_eq_none rest hr
      subst hrest
      injection h with h
      subst h
      rcases List.mem_cons.mp hx with rfl | hx
      · exact strLe_refl x
      · simp at hx
    · by_cases hc : strLe s m₀ = true <;> simp [hc] at h <;> subst h
      · rcases List.mem_cons.mp hx with rfl | hx
        · exact hc
        · exact ih m₀ hr x hx
      · rcases List.mem_cons.mp hx with rfl | hx
        · exact strLe_refl x
        · have h₁ := ih m₀ hr x hx
          rcases strLe_total m₀ s with h₃ | h₃
          · exact strLe_trans x m₀ s h₁ h₃
          · exact absurd h₃ (by simpa using hc)

theorem sqlMaxString_of_ne_nil (l : List String) (h : l ≠ []) :
    ∃ m, sqlMaxString l = some m := by
  cases l with
  | nil => exact absurd rfl h
  | cons s rest =>
    simp only [sqlMaxString]
    rcases hr : sqlMaxString rest with _ | m₀
    · exact ⟨s, rfl⟩
    · by_cases hc : strLe s m₀ = true <;> simp [hc]

theorem sqlMaxString_eq_of_max (l : List String) (m : String) (hm : m ∈ l)
    (hmax : ∀ x ∈ l, strLe x m = true) : sqlMaxString l = some m := by
  rcases sqlMaxString_of_ne_nil l (by rintro rfl; simp at hm) with ⟨m₀, h₀⟩
  have h₁ : strLe m₀ m = true := hmax m₀ (sqlMaxString_mem l m₀ h₀)
  have h₂ : strLe m m₀ = true := sqlMaxString_isMax l m₀ h₀ m hm
  rw [h₀, strLe_antisymm m₀ m h₁ h₂]

/-! ### Structure of the expansion loop -/

theorem expandLoop_length (db : DB) (die : Die) (po : ProductionOrder)
    (comps : List DieComponent) (index woId opId : Nat) (flushed ws : List WorkOrder)
    (os : List WorkOrderOperation)
    (h : expandLoop db die po comps index woId opId flushed = .ok (ws, os)) :
    ws.length = comps.length := by
  induction comps generalizing index woId opId flushed ws os with
  | nil =>
    simp only [expandLoop] at h
    cases h
    rfl
  | cons c rest ih =>
    simp only [expandLoop] at h
    split at h
    · cases h
    · split at h
      · rename_i ws' os' heq
        cases h
        simp [ih _ _ _ _ _ _ heq]
      · cases h

theorem expandLoop_get (db : DB) (die : Die) (po : ProductionOrder)
    (comps : List DieComponent) (index woId opId : Nat) (flushed ws : List WorkOrder)
    (os : List WorkOrderOperation)
    (h : expandLoop db die po comps index woId opId flushed = .ok (ws, os)) :
    ∀ (i : Nat) (h₁ : i < ws.length) (h₂ : i < comps.length),
      ws.get ⟨i, h₁⟩ = newWorkOrder (woId + i) po (comps.get ⟨i, h₂⟩)
        (generate_work_order_number die po (Int.ofNat (index + i))) := by
  induction comps generalizing index woId opId flushed ws os with
  | nil =>
    simp only [expandLoop] at h
    cases h
    intro i h₁ h₂
    simp at h₂
  | cons c rest ih =>
    simp only [expandLoop] at h
    split at h
    · cases h
    · split at h
      · rename_i ws' os' heq
        cases h
        intro i h₁ h₂
        cases i with
        | zero => rfl
        | succ j =>
          have e₁ : woId + (j + 1) = (woId + 1) + j := by omega
          have e₂ : index + (j + 1) = (index + 1) + j := by omega
          have h₁' : j < ws'.length := by simpa using h₁
          have h₂' : j < rest.length := by simpa using h₂
          show ws'.get ⟨j, h₁'⟩ = _
          rw [e₁, e₂]
          exact ih _ _ _ _ _ _ heq j h₁' h₂'
      · cases h

theorem expandLoop_ops_woid_bounds (db : DB) (die : Die) (po : ProductionOrder)
    (comps : List DieComponent) (index woId opId : Nat) (flushed ws : List WorkOrder)
    (os : List WorkOrderOperation)
    (h : expandLoop db die po comps index woId opId flushed = .ok (ws, os)) :
    ∀ o ∈ os, woId ≤ o.work_order_id ∧ o.work_order_id < woId + comps.length := by
  induction comps generalizing index woId opId flushed ws os with
  | nil =>
    simp only [expandLoop] at h
    cases h
    intro o ho
    simp at ho
  | cons c rest ih =>
    simp only [expandLoop] at h
    split at h
    · cases h
    · split at h
      · rename_i ws' os' heq
        cases h
        intro o ho
        rcases List.mem_append.mp ho with ho | ho
        · rcases List.mem_map.mp ho with ⟨kb, _, rfl⟩
          simp only [operationFromBom]
          constructor
          · exact Nat.le_refl woId
          · simp
        · have := ih _ _ _ _ _ _ heq o ho
          constructor
          · omega
          · simp only [List.length_cons]
            omega
      · cases h

theorem expandLoop_ops_status (db : DB) (die : Die) (po : ProductionOrder)
    (comps : List DieComponent) (index woId opId : Nat) (flushed ws : List WorkOrder)
    (os : List WorkOrderOperation)
    (h : expandLoop db die po comps index woId opId flushed = .ok (ws, os)) :
    ∀ o ∈ os, o.status = OperationStatus.Waiting := by
  induction comps generalizing index woId opId flushed ws os with
  | nil =>
    simp only [expandLoop] at h
    cases h
    intro o ho
    simp at ho
  | cons c rest ih =>
    simp only [expandLoop] at h
    split at h
    · cases h
    · split at h
      · rename_i ws' os' heq
        cases h
        intro o ho
        rcases List.mem_append.mp ho with ho | ho
        · rcases List.mem_map.mp ho with ⟨kb, _, rfl⟩
          rfl
        · exact ih _ _ _ _ _ _ heq o ho
      · cases h

theorem expandLoop_ops_filter (db : DB) (die : Die) (po : ProductionOrder)
    (comps : List DieComponent) (index woId opId : Nat) (flushed ws : List WorkOrder)
    (os : List WorkOrderOperation)
    (h : expandLoop db die po comps index woId opId flushed = .ok (ws, os)) :
    ∀ (i : Nat) (h₂ : i < comps.length), ∃ base,
      os.filter (fun o => o.work_order_id == woId + i)
        = (bomsFor db (comps.get ⟨i, h₂⟩).component_type_id).enum.map
            (fun kb => operationFromBom (base + kb.1) (woId + i) kb.2) := by
  induction comps generalizing index woId opId flushed ws os with
  | nil =>
    simp only [expandLoop] at h
    cases h
    intro i h₂
    simp at h₂
  | cons c rest ih =>
    simp only [expandLoop] at h
    split at h
    · cases h
    · split at h
      · rename_i ws' os' heq
        cases h
        intro i h₂
        rw [List.filter_append]
        cases i with
        | zero =>
          refine ⟨opId, ?_⟩
          have hall : (List.map (fun kb => operationFromBom (opId + kb.1) woId kb.2)
              (bomsFor db c.component_type_id).enum).filter
              (fun o => o.work_order_id == woId + 0) =
              List.map (fun kb => operationFromBom (opId + kb.1) woId kb.2)
              (bomsFor db c.component_type_id).enum := by
            apply List.filter_eq_self.mpr
            intro o ho
            rcases List.mem_map.mp ho with ⟨kb, _, rfl⟩
            simp [operationFromBom]
          have hnil : os'.filter (fun o => o.work_order_id == woId + 0) = [] := by
            apply List.filter_eq_nil_iff.mpr
            intro o ho
            have := expandLoop_ops_woid_bounds db die po rest _ _ _ _ _ _ heq o ho
            simp only [beq_iff_eq]
            omega
          rw [hall, hnil, List.append_nil]
          simp
        | succ j =>
          have hnil : (List.map (fun kb => operationFromBom (opId + kb.1) woId kb.2)
              (bomsFor db c.component_type_id).enum).filter
              (fun o => o.work_order_id == woId + (j + 1)) = [] := by
            apply List.filter_eq_nil_iff.mpr
            intro o ho
            rcases List.mem_map.mp ho with ⟨kb, _, rfl⟩
            simp only [operationFromBom, beq_iff_eq]
            omega
          have h₂' : j < rest.length := by simpa using h₂
          rcases ih _ _ _ _ _ _ heq j h₂' with ⟨base, hbase⟩
          refine ⟨base, ?_⟩
          have e₁ : (woId + 1) + j = woId + (j + 1) := by omega
          rw [e₁] at hbase
          rw [hnil, List.nil_append, hbase]
          rfl
      · cases h

theorem expand_ok_destruct (db : DB) (poid now : Nat) (db' : DB)
    (po : ProductionOrder) (die : Die)
    (hpo : db.production_orders.find? (fun p => p.id == poid) = some po)
    (hdie : db.dies.find? (fun d => d.id == po.die_id) = some die)
    (h : generate_work_orders_for_production_order db poid now = .ok db') :
    ∃ ws os,
      expandLoop db die po
        (sortedComponents (db.die_components.filter (fun c => c.die_id == die.id)))
        1 db.next_work_order_id db.next_operation_id [] = .ok (ws, os)
      ∧ sortedComponents (db.die_components.filter (fun c => c.die_id == die.id)) ≠ []
      ∧ db' = { db with
          dies := replaceBy (fun d => d.id) db.dies { die with status := DieStatus.InProduction }
          production_orders := replaceBy (fun p => p.id) db.production_orders
            { po with
              status := OrderStatus.InProgress
              started_at := match po.started_at with
                | none => some now
                | some t => some t }
          work_orders := db.work_orders ++ ws
          work_order_operations := db.work_order_operations ++ os
          next_work_order_id := db.next_work_order_id + ws.length
          next_operation_id := db.next_operation_id + os.length } := by
  unfold generate_work_orders_for_production_order at h
  rw [hpo] at h
  simp only at h
  rw [hdie] at h
  simp only at h
  split at h
  · cases h
  · rename_i hne
    split at h
    · cases h
    · rename_i ws os heq
      cases h
      exact ⟨ws, os, heq, by simpa [List.isEmpty_iff] using hne, rfl⟩

/-! ### Claim theorems -/

/-- C1: a successful expansion of a production order creates exactly one
work order per die component (components ascending by id, 1-based work
order index in the generated number) and, per work order, exactly one
operation per BOM row of the component type, fields copied from the
BOM, all created rows Waiting. -/
theorem C1_expansion_fanout (db : DB) (poid now : Nat) (db' : DB)
    (po : ProductionOrder) (die : Die)
    (hpo : db.production_orders.find? (fun p => p.id == poid) = some po)
    (hdie : db.dies.find? (fun d => d.id == po.die_id) = some die)
    (h : generate_work_orders_for_production_order db poid now = .ok db') :
    ExpansionSpec db db' po die := by
  rcases expand_ok_destruct db poid now db' po die hpo hdie h with ⟨ws, os, heq, hne, rfl⟩
  unfold ExpansionSpec
  have hlen := expandLoop_length db die po _ _ _ _ _ _ _ heq
  refine ⟨ws, os, rfl, rfl, ?_, hlen, ?_, ?_, ?_, ?_, ?_, ?_⟩
  · rcases List.exists_cons_of_ne_nil hne with ⟨c, cs, hcc⟩
    rw [hcc]
    simp
  · unfold sortedComponents
    exact List.sorted_insertionSort (fun a b : DieComponent => a.id ≤ b.id) _
  · unfold sortedComponents
    exact List.perm_insertionSort (fun a b : DieComponent => a.id ≤ b.id) _
  · exact expandLoop_get db die po _ _ _ _ _ _ _ heq
  · exact expandLoop_ops_filter db die po _ _ _ _ _ _ _ heq
  · intro w hw
    rcases List.mem_iff_get.mp hw with ⟨⟨i, h₁⟩, rfl⟩
    rw [expandLoop_get db die po _ _ _ _ _ _ _ heq i h₁ (by rw [← hlen]; exact h₁)]
    rfl
  · exact expandLoop_ops_status db die po _ _ _ _ _ _ _ heq

/-- C2: transitioning an operation to InProgress fails with the
sequence-dependency violation exactly when a sibling operation of the
same work order with a strictly smaller sequence number is not
Completed; on failure nothing is committed, so the operation and every
other row are unchanged. -/
theorem C2_sequence_dependency_iff (db : DB) (opId : Nat) (patch : OperationStatusPatch) (now : Nat)
    (op : WorkOrderOperation)
    (hfind : db.work_order_operations.find? (fun o => o.id == opId) = some op)
    (hst : patch.status = OperationStatus.InProgress) :
    (update_work_order_operation db opId patch now
        = .error TransitionError.sequence_dependency_violation
      ↔ ∃ p ∈ db.work_order_operations,
          p.work_order_id = op.work_order_id
          ∧ p.sequence_number < op.sequence_number
          ∧ p.status ≠ OperationStatus.Completed)
    ∧ (∀ e, update_work_order_operation db opId patch now = .error e →
        run_update_operation db opId patch now = (db, some e)) := by
  constructor
  · unfold update_work_order_operation
    rw [hfind]
    rcases patch with ⟨st, name?⟩
    simp only at hst
    subst hst
    simp only
    by_cases hemp :
        ((db.work_order_operations.filter
          (fun p => p.work_order_id == op.work_order_id
            && decide (p.sequence_number < op.sequence_number))).filter
          (fun p => !(p.status == OperationStatus.Completed))) = []
    · rw [hemp]
      simp only [List.isEmpty_nil, Bool.not_true, Bool.false_eq_true, if_false]
      constructor
      · intro hcontra
        exfalso
        rcases name? with _ | v
        · simp at hcontra
        · dsimp only at hcontra
          split at hcontra <;> simp at hcontra
      · rintro ⟨p, hp, hw, hs, hc⟩
        have hmem : p ∈ (db.work_order_operations.filter
            (fun q => q.work_order_id == op.work_order_id
              && decide (q.sequence_number < op.sequence_number))).filter
            (fun q => !(q.status == OperationStatus.Completed)) := by
          rw [List.mem_filter, List.mem_filter]
          refine ⟨⟨hp, ?_⟩, ?_⟩
          · simp [hw, hs]
          · simp [hc]
        rw [hemp] at hmem
        simp at hmem
    · rcases List.exists_mem_of_ne_nil _ hemp with ⟨p, hp⟩
      have hne : ((db.work_order_operations.filter
          (fun q => q.work_order_id == op.work_order_id
            && decide (q.sequence_number < op.sequence_number))).filter
          (fun q => !(q.status == OperationStatus.Completed))).isEmpty = false := by
        cases hX : ((db.work_order_operations.filter
            (fun q => q.work_order_id == op.work_order_id
              && decide (q.sequence_number < op.sequence_number))).filter
            (fun q => !(q.status == OperationStatus.Completed))).isEmpty
        · rfl
        · exact absurd (List.isEmpty_iff.mp hX) hemp
      rw [hne]
      simp only [Bool.not_false, if_true]
      constructor
      · intro _
        rw [List.mem_filter, List.mem_filter] at hp
        refine ⟨p, hp.1.1, ?_, ?_, ?_⟩
        · have := hp.1.2
          simp only [Bool.and_eq_true, beq_iff_eq, decide_eq_true_eq] at this
          exact this.1
        · have := hp.1.2
          simp only [Bool.and_eq_true, beq_iff_eq, decide_eq_true_eq] at this
          exact this.2
        · have := hp.2
          simpa using this
      · intro _
        trivial
  · intro e he
    unfold run_update_operation
    rw [he]

/-- C3: invoking expansion a second time on an already-expanded
production order fails deterministically (the regenerated work order
number collides with the UNIQUE order_number column) and the store is
left exactly as it was, with no duplicate work orders or operations. -/
theorem C3_reexpansion_fails (db : DB) (poid now now₂ : Nat) (db' : DB)
    (h : generate_work_orders_for_production_order db poid now = .ok db') :
    generate_work_orders_for_production_order db' poid now₂
      = .error ExpandError.duplicate_order_number
    ∧ run_generate_work_orders db' poid now₂
      = (db', some ExpandError.duplicate_order_number) := by
  rcases hpo : db.production_orders.find? (fun p => p.id == poid) with _ | po
  · exfalso
    unfold generate_work_orders_for_production_order at h
    rw [hpo] at h
    cases h
  rcases hdie : db.dies.find? (fun d => d.id == po.die_id) with _ | die
  · exfalso
    unfold generate_work_orders_for_production_order at h
    rw [hpo] at h
    simp only at h
    rw [hdie] at h
    cases h
  rcases expand_ok_destruct db poid now db' po die hpo hdie h with ⟨ws, os, heq, hne, rfl⟩
  have hlen := expandLoop_length db die po _ _ _ _ _ _ _ heq
  have hfail : generate_work_orders_for_production_order
      { db with
        dies := replaceBy (fun d => d.id) db.dies { die with status := DieStatus.InProduction }
        production_orders := replaceBy (fun p => p.id) db.production_orders
          { po with
            status := OrderStatus.InProgress
            started_at := match po.started_at with
              | none => some now
              | some t => some t }
        work_orders := db.work_orders ++ ws
        work_order_operations := db.work_order_operations ++ os
        next_work_order_id := db.next_work_order_id + ws.length
        next_operation_id := db.next_operation_id + os.length } poid now₂
      = .error ExpandError.duplicate_order_number := by
    unfold generate_work_orders_for_production_order
    dsimp only
    rw [find?_replaceBy (fun p => p.id) db.production_orders poid po
      { po with
        status := OrderStatus.InProgress
        started_at := match po.started_at with
          | none => some now
          | some t => some t } hpo (by rfl)]
    dsimp only
    rw [find?_replaceBy (fun d => d.id) db.dies po.die_id die
      { die with status := DieStatus.InProduction } hdie (by rfl)]
    dsimp only
    rcases hcomps : sortedComponents
        (db.die_components.filter (fun c => c.die_id == die.id)) with _ | ⟨c, cs⟩
    · exact absurd hcomps hne
    simp only [List.isEmpty_cons, Bool.false_eq_true, if_false]
    have h₁ : 0 < ws.length := by
      rw [hlen, hcomps]
      simp
    have h₂ : 0 < ((sortedComponents
        (db.die_components.filter (fun c => c.die_id == die.id)))).length := by
      rw [hcomps]
      simp
    have hget := expandLoop_get db die po _ _ _ _ _ _ _ heq 0 h₁ h₂
    have hany : ((db.work_orders ++ ws) ++ ([] : List WorkOrder)).any
        (fun w => w.order_number == generate_work_order_number
          { die with status := DieStatus.InProduction }
          { po with
            status := OrderStatus.InProgress
            started_at := match po.started_at with
              | none => some now
              | some t => some t } (Int.ofNat 1)) = true := by
      apply List.any_eq_true.mpr
      refine ⟨ws.get ⟨0, h₁⟩, ?_, ?_⟩
      · rw [List.append_nil]
        exact List.mem_append.mpr (Or.inr (ws.get_mem 0 h₁))
      · rw [hget]
        rw [generate_work_order_number_congr
          { die with status := DieStatus.InProduction } die
          { po with
            status := OrderStatus.InProgress
            started_at := match po.started_at with
              | none => some now
              | some t => some t } po (Int.ofNat 1) rfl rfl]
        simp [newWorkOrder]
    simp only [expandLoop]
    rw [hany]
    simp
  exact ⟨hfail, by
    unfold run_generate_work_orders
    rw [hfail]⟩

/-- C5: generate_production_order_number takes the lexicographically
maximal existing number sharing the UE-die prefix, parses its trailing
hyphen segment as a Python int and increments it, zero-padded to three
digits; an empty history, like an unparsable trailing segment, starts
the sequence at 1. -/
theorem C5_production_order_number (db : DB) (die : Die) :
    (poNumbersMatching db die = [] →
      generate_production_order_number db die
        = "UE-" ++ die.die_number ++ "-" ++ pyFormatZeroPad 1 3)
    ∧ (∀ m, m ∈ poNumbersMatching db die →
        (∀ x ∈ poNumbersMatching db die, strLe x m = true) →
        generate_production_order_number db die
          = "UE-" ++ die.die_number ++ "-" ++
            pyFormatZeroPad
              (match (trailingSegment m).bind pyInt? with
                | some n => n + 1
                | none => 1) 3) := by
  constructor
  · intro hnil
    unfold generate_production_order_number
    rw [hnil]
    rfl
  · intro m hm hmax
    unfold generate_production_order_number
    rw [sqlMaxString_eq_of_max (poNumbersMatching db die) m hm hmax]
    dsimp only
    rcases ht : trailingSegment m with _ | t
    · rfl
    · dsimp only [Option.bind]

/-- C6: generate_work_order_number returns
IE-<die_number>-<po_seq>-<index zero-padded to two digits>, with
die_number and po_seq extracted from the parent production order number
of the form UE-<die_number>-<po_seq>. -/
theorem C6_work_order_number (die : Die) (po : ProductionOrder) (index : Int) (d s : String)
    (hd : ('-' : Char) ∉ d.data)
    (hpo : po.order_number = "UE-" ++ d ++ "-" ++ s) :
    generate_work_order_number die po index
      = "IE-" ++ d ++ "-" ++ s ++ "-" ++ pyFormatZeroPad index 2 := by
  unfold generate_work_order_number pySplitMax2
  rw [hpo]
  have hdata : ("UE-" ++ d ++ "-" ++ s).data
      = ['U', 'E'] ++ '-' :: (d.data ++ '-' :: s.data) := by
    simp [String.data_append]
  rw [hdata]
  rw [splitFirst_append_sep '-' ['U', 'E'] (d.data ++ '-' :: s.data) (by decide)]
  simp only
  rw [splitFirst_append_sep '-' d.data s.data hd]

/-- C7 (amended): on a successful transition to InProgress the code
always sets started_at to the current time, overwriting any previous
value (the claim said it is preserved when already set — refuted by
C7_started_at_overwritten_counterexample); a supplied truthy operator
name is bound, and the operation's work center is set Busy; no other
row changes. -/
theorem C7_inprogress_success_effects (db : DB) (opId now : Nat) (name? : Option (Option String))
    (op : WorkOrderOperation) (db' : DB)
    (hfind : db.work_order_operations.find? (fun o => o.id == opId) = some op)
    (h : update_work_order_operation db opId ⟨OperationStatus.InProgress, name?⟩ now = .ok db') :
    db' = { db with
      work_order_operations := replaceBy (fun o => o.id) db.work_order_operations
        { op with
          status := OperationStatus.InProgress
          started_at := some now
          operator_name := match name? with
            | some v => if pyTruthyStr v = true then v else op.operator_name
            | none => op.operator_name }
      work_centers := setWorkCenterStatus db.work_centers op.work_center_id
        WorkCenterStatus.Busy } := by
  unfold update_work_order_operation at h
  rw [hfind] at h
  simp only at h
  split at h
  · cases h
  · cases h
    rcases name? with _ | v
    · rfl
    · by_cases htr : pyTruthyStr v = true <;> simp [htr]

/-- C8: a successful expansion sets the die's status to InProduction
and the production order's status to InProgress, sets the production
order's started_at to the current time only when it was unset, and
changes no other production-order field. -/
theorem C8_expansion_side_effects (db : DB) (poid now : Nat) (db' : DB)
    (po : ProductionOrder) (die : Die)
    (hpo : db.production_orders.find? (fun p => p.id == poid) = some po)
    (hdie : db.dies.find? (fun d => d.id == po.die_id) = some die)
    (h : generate_work_orders_for_production_order db poid now = .ok db') :
    db'.dies.find? (fun d => d.id == po.die_id)
      = some { die with status := DieStatus.InProduction }
    ∧ db'.production_orders.find? (fun p => p.id == poid)
      = some { po with
          status := OrderStatus.InProgress
          started_at := match po.started_at with
            | none => some now
            | some t => some t } := by
  rcases expand_ok_destruct db poid now db' po die hpo hdie h with ⟨ws, os, heq, hne, rfl⟩
  constructor
  · exact find?_replaceBy (fun d => d.id) db.dies po.die_id die
      { die with status := DieStatus.InProduction } hdie (by rfl)
  · exact find?_replaceBy (fun p => p.id) db.production_orders poid po
      { po with
        status := OrderStatus.InProgress
        started_at := match po.started_at with
          | none => some now
          | some t => some t } hpo (by rfl)

/-- C9 (amended): transitioning to Paused always succeeds, from any
current status (the claim said only from InProgress — refuted by
C9_paused_from_waiting_counterexample), and changes nothing but that
operation's status: no timestamp is stamped and the work centers are
untouched. -/
theorem C9_paused_transition (db : DB) (opId now : Nat) (name? : Option (Option String))
    (op : WorkOrderOperation)
    (hfind : db.work_order_operations.find? (fun o => o.id == opId) = some op) :
    update_work_order_operation db opId ⟨OperationStatus.Paused, name?⟩ now
      = .ok { db with
          work_order_operations := replaceBy (fun o => o.id) db.work_order_operations
            { op with status := OperationStatus.Paused } } := by
  unfold update_work_order_operation
  rw [hfind]

/-- C10 (amended): while a lower-sequence sibling stays Cancelled, a
transition of the later operation to InProgress fails with the
sequence-dependency violation; but Cancelled is not terminal in the
code — the cancelled predecessor itself can always be transitioned to
Completed (refuting the claim that the block lasts forever, see
C10_cancelled_not_permanent_counterexample). -/
theorem C10_cancelled_predecessor_blocks (db : DB) (opId now : Nat) (name? : Option (Option String))
    (op p : WorkOrderOperation)
    (hfind : db.work_order_operations.find? (fun o => o.id == opId) = some op)
    (hp : p ∈ db.work_order_operations)
    (hw : p.work_order_id = op.work_order_id)
    (hs : p.sequence_number < op.sequence_number)
    (hc : p.status = OperationStatus.Cancelled)
    (hfindp : db.work_order_operations.find? (fun o => o.id == p.id) = some p) :
    update_work_order_operation db opId ⟨OperationStatus.InProgress, name?⟩ now
      = .error TransitionError.sequence_dependency_violation
    ∧ ∃ db₂, update_work_order_operation db p.id
        ⟨OperationStatus.Completed, none⟩ now = .ok db₂ := by
  constructor
  · unfold update_work_order_operation
    rw [hfind]
    simp only
    have hmem : p ∈ (db.work_order_operations.filter
        (fun q => q.work_order_id == op.work_order_id
          && decide (q.sequence_number < op.sequence_number))).filter
        (fun q => !(q.status == OperationStatus.Completed)) := by
      rw [List.mem_filter, List.mem_filter]
      refine ⟨⟨hp, ?_⟩, ?_⟩
      · simp [hw, hs]
      · simp [hc]
    have hne : ((db.work_order_operations.filter
        (fun q => q.work_order_id == op.work_order_id
          && decide (q.sequence_number < op.sequence_number))).filter
        (fun q => !(q.status == OperationStatus.Completed))).isEmpty = false := by
      cases hX : ((db.work_order_operations.filter
          (fun q => q.work_order_id == op.work_order_id
            && decide (q.sequence_number < op.sequence_number))).filter
          (fun q => !(q.status == OperationStatus.Completed))).isEmpty
      · rfl
      · rw [List.isEmpty_iff.mp hX] at hmem
        simp at hmem
    rw [hne]
    simp
  · unfold update_work_order_operation
    rw [hfindp]
    exact ⟨_, rfl⟩

/-! ### Witnesses and counterexamples -/

/-- C4: the stock-movement endpoint at a concrete failing input — a lot
with 5 remaining and a movement of 10 over it.  The handler accepts the
movement and never touches lot.remaining_kg: no InsufficientStock
rejection and no decrement exist in the code, contradicting the
spec's ledger contract. -/
theorem C4_movement_no_stock_check :
    c4Lot.remaining_kg = 5
    ∧ c4Payload.quantity_kg = 10
    ∧ c4Payload.lot_id = c4Lot.id
    ∧ c4DB.lots = [c4Lot]
    ∧ create_stock_movement c4DB c4Payload = .ok c4Out
    ∧ c4Out.lots = c4DB.lots
    ∧ c4Out.stock_movements.length = c4DB.stock_movements.length + 1
    ∧ c4Out.stock_movements.map (fun mv => mv.quantity_kg) = [10] :=
  ⟨rfl, rfl, rfl, rfl, rfl, rfl, rfl, rfl⟩

/-- C1 witness: the spec scenario (die "1100", two components with
three-step BOMs) satisfies the fan-out theorem. -/
theorem C1_expansion_fanout_witness :
    generate_work_orders_for_production_order scenarioDB 1 50 = .ok scenarioExpanded
    ∧ ExpansionSpec scenarioDB scenarioExpanded scenarioPO scenarioDie :=
  ⟨rfl, C1_expansion_fanout scenarioDB 1 50 scenarioExpanded scenarioPO scenarioDie rfl rfl rfl⟩

/-- C2 witness: with operation 1 (sequence 1) Cancelled, starting
operation 2 fails with the sequence-dependency violation. -/
theorem C2_sequence_dependency_iff_witness :
    update_work_order_operation stateMachineDB 2
        ⟨OperationStatus.InProgress, none⟩ 10
      = .error TransitionError.sequence_dependency_violation :=
  (C2_sequence_dependency_iff stateMachineDB 2 ⟨OperationStatus.InProgress, none⟩ 10
    smOp2 rfl rfl).1.mpr ⟨smOp1, by decide, by decide, by decide, by decide⟩

/-- C3 witness: re-expanding the already-expanded scenario order fails
on the duplicate work order number and changes nothing. -/
theorem C3_reexpansion_fails_witness :
    generate_work_orders_for_production_order scenarioExpanded 1 60
      = .error ExpandError.duplicate_order_number
    ∧ run_generate_work_orders scenarioExpanded 1 60
      = (scenarioExpanded, some ExpandError.duplicate_order_number) :=
  C3_reexpansion_fails scenarioDB 1 50 60 scenarioExpanded rfl

/-- C5 witness: history UE-100-001, UE-100-002 yields UE-100-003; an
empty history yields UE-100-001. -/
theorem C5_production_order_number_witness :
    generate_production_order_number c5DB c5Die = "UE-100-003"
    ∧ generate_production_order_number c5EmptyDB c5Die = "UE-100-001" :=
  ⟨((C5_production_order_number c5DB c5Die).2 "UE-100-002"
      (by decide) (by decide)).trans rfl,
   ((C5_production_order_number c5EmptyDB c5Die).1 rfl).trans rfl⟩

/-- C6 witness: parent UE-100-003 yields IE-100-003-01 and
IE-100-003-02. -/
theorem C6_work_order_number_witness :
    generate_work_order_number c6Die c6PO 1 = "IE-100-003-01"
    ∧ generate_work_order_number c6Die c6PO 2 = "IE-100-003-02" :=
  ⟨(C6_work_order_number c6Die c6PO 1 "100" "003" (by decide) (by rfl)).trans rfl,
   (C6_work_order_number c6Die c6PO 2 "100" "003" (by decide) (by rfl)).trans rfl⟩

/-- C7 counterexample: an operation whose started_at is already 5 gets
started_at 9 after a successful transition at time 9 — the previous
value is overwritten, not preserved as the claim states. -/
theorem C7_started_at_overwritten_counterexample :
    c7DB.work_order_operations.map (fun o => o.started_at) = [some 5]
    ∧ update_work_order_operation c7DB 1
        ⟨OperationStatus.InProgress, some (some "ali")⟩ 9 = .ok c7Out
    ∧ c7Out.work_order_operations.map (fun o => o.started_at) = [some 9]
    ∧ c7Out.work_order_operations.map (fun o => o.operator_name) = [some "ali"] :=
  ⟨rfl, rfl, rfl, rfl⟩

/-- C7 witness: the amended effects theorem at the concrete store. -/
theorem C7_inprogress_success_effects_witness :
    c7Out = { c7DB with
      work_order_operations := replaceBy (fun o => o.id) c7DB.work_order_operations
        { c7Op with
          status := OperationStatus.InProgress
          started_at := some 9
          operator_name := match some (some "ali") with
            | some v => if pyTruthyStr v = true then v else c7Op.operator_name
            | none => c7Op.operator_name }
      work_centers := setWorkCenterStatus c7DB.work_centers c7Op.work_center_id
        WorkCenterStatus.Busy } :=
  C7_inprogress_success_effects c7DB 1 9 (some (some "ali")) c7Op c7Out rfl rfl

/-- C8 witness: the scenario expansion flips the die and order status
and stamps started_at 50. -/
theorem C8_expansion_side_effects_witness :
    scenarioExpanded.dies.find? (fun d => d.id == scenarioPO.die_id)
      = some { scenarioDie with status := DieStatus.InProduction }
    ∧ scenarioExpanded.production_orders.find? (fun p => p.id == 1)
      = some { scenarioPO with
          status := OrderStatus.InProgress
          started_at := match scenarioPO.started_at with
            | none => some 50
            | some t => some t } :=
  C8_expansion_side_effects scenarioDB 1 50 scenarioExpanded scenarioPO scenarioDie rfl rfl rfl

/-- C9 counterexample: pausing an operation that is Waiting (not
InProgress) succeeds, refuting the claimed precondition; only the
status field changes. -/
theorem C9_paused_from_waiting_counterexample :
    (stateMachineDB.work_order_operations.find? (fun o => o.id == 2)).map
        (fun o => o.status) = some OperationStatus.Waiting
    ∧ update_work_order_operation stateMachineDB 2 ⟨OperationStatus.Paused, none⟩ 9
        = .ok pausedOut
    ∧ (pausedOut.work_order_operations.find? (fun o => o.id == 2)).map
        (fun o => o.status) = some OperationStatus.Paused
    ∧ pausedOut.work_order_operations.map (fun o => (o.started_at, o.completed_at))
        = stateMachineDB.work_order_operations.map (fun o => (o.started_at, o.completed_at))
    ∧ pausedOut.work_centers = stateMachineDB.work_centers :=
  ⟨rfl, rfl, rfl, rfl, rfl⟩

/-- C9 witness: the amended Paused-transition equation at the concrete
store. -/
theorem C9_paused_transition_witness :
    update_work_order_operation stateMachineDB 2 ⟨OperationStatus.Paused, none⟩ 9
      = .ok { stateMachineDB with
          work_order_operations := replaceBy (fun o => o.id)
            stateMachineDB.work_order_operations
            { smOp2 with status := OperationStatus.Paused } } :=
  C9_paused_transition stateMachineDB 2 9 none smOp2 rfl

/-- C10 counterexample: with operation 1 Cancelled the start of
operation 2 fails, but transitioning operation 1 to Completed succeeds
and afterwards operation 2 enters InProgress — the block is not
permanent. -/
theorem C10_cancelled_not_permanent_counterexample :
    (stateMachineDB.work_order_operations.find? (fun o => o.id == 1)).map
        (fun o => o.status) = some OperationStatus.Cancelled
    ∧ update_work_order_operation stateMachineDB 2 ⟨OperationStatus.InProgress, none⟩ 10
        = .error TransitionError.sequence_dependency_violation
    ∧ update_work_order_operation stateMachineDB 1 ⟨OperationStatus.Completed, none⟩ 11
        = .ok c10Mid
    ∧ update_work_order_operation c10Mid 2 ⟨OperationStatus.InProgress, none⟩ 12
        = .ok c10End
    ∧ (c10End.work_order_operations.find? (fun o => o.id == 2)).map
        (fun o => o.status) = some OperationStatus.InProgress :=
  ⟨rfl, rfl, rfl, rfl, rfl⟩

/-- C10 witness: the amended blocking theorem at the concrete store. -/
theorem C10_cancelled_predecessor_blocks_witness :
    update_work_order_operation stateMachineDB 2 ⟨OperationStatus.InProgress, none⟩ 10
      = .error TransitionError.sequence_dependency_violation
    ∧ ∃ db₂, update_work_order_operation stateMachineDB 1
        ⟨OperationStatus.Completed, none⟩ 10 = .ok db₂ :=
  C10_cancelled_predecessor_blocks stateMachineDB 2 10 none smOp2 smOp1
    rfl (by decide) rfl (by decide) rfl rfl

end DieShop
